import Mathlib

/-!
Shallow embedding of the `projected` library (TypeScript) for checking its
natural-language specification.

Modelled components (translated from the repository sources):
* `ProjectedValue` (src/projected-value/projected-value.ts) — the `PV` machine;
* `ProjectedMap` (src/projected-map/projected-map.ts, first variant) — the `PM` machine;
* `Resolver` (src/projected-lazy-map/dispatcher.ts) — the dispatcher;
* `ProjectedLazyMap` (two variants in src, sharing one KeyStore model) — the `LM` model.

JavaScript `Map` objects are modelled as insertion-ordered association lists
(`Map.set` updates in place or appends), JS `Set` as insertion-ordered
duplicate-free lists, promises as explicit in-flight records (`fid`) whose
continuations are applied by explicit settlement events, and JS truthiness by a
caller-supplied `truthy : V → Bool` (lifted to `Option V`, where `none` is
`undefined`).  `deepFreeze` only installs mutation protection at runtime and
does not change the value, so it is modelled as the identity and elided.
-/

namespace Projected

variable {K V A : Type}

/-- JS `Map.prototype.get`, on an insertion-ordered association list. -/
def mapGet [DecidableEq K] : List (K × A) → K → Option A
  | [], _ => none
  | p :: ps, k => if p.1 = k then some p.2 else mapGet ps k

/-- JS `Map.prototype.set`: update an existing key in place (a `Map` holds
each key once), else append. -/
def mapSet [DecidableEq K] : List (K × A) → K → A → List (K × A)
  | [], k, a => [(k, a)]
  | p :: ps, k, a => if p.1 = k then (k, a) :: ps else p :: mapSet ps k a

/-- JS `Set.prototype.add`: a key already present keeps its position. -/
def jsSetAdd [DecidableEq K] (l : List K) (k : K) : List K :=
  if k ∈ l then l else l ++ [k]

/-- JS `new Set(keys)`: dedup preserving first occurrences. -/
def jsSetOfList [DecidableEq K] (keys : List K) : List K :=
  keys.foldl jsSetAdd []

/-- JS truthiness of a `Maybe<V>` value: `undefined` is falsy, a present value
is as truthy as the caller-supplied `truthy` says. -/
def jsTruthy (truthy : V → Bool) : Option V → Bool
  | none => false
  | some v => truthy v

/-! ## ProjectedValue (src/projected-value/projected-value.ts) -/

/-- The `CacheState<V>` tagged union of projected-value.ts; the in-flight
promise is identified by its fetch id `fid`. -/
inductive PVState (V : Type) where
  | empty
  | pending (fid : Nat)
  | resolved (value : V)
  | refreshing (value : V) (fid : Nat)
deriving DecidableEq

/-- An in-flight upstream call of a `ProjectedValue` together with the data its
settlement continuation closed over (`fetch` has no captured data; the
`triggerBackgroundRefresh` continuation captured `staleValue`). -/
inductive PVFlight (V : Type) where
  | firstFetch (fid : Nat)
  | bgRefresh (fid : Nat) (stale : Option V)
deriving DecidableEq

def PVFlight.fid : PVFlight V → Nat
  | .firstFetch f => f
  | .bgRefresh f _ => f

/-- A `ProjectedValue<V>` instance.  `spawned` counts the invocations of the
caller-supplied `value` fetch function; the fid of a newly started upstream
call is the current count. -/
structure PV (V : Type) where
  state : PVState V
  shouldCache : Bool
  spawned : Nat
  flights : List (PVFlight V)
deriving DecidableEq

/-- A fresh `ProjectedValue` (constructor): state `empty`, nothing in flight. -/
def PV.mk0 (shouldCache : Bool) : PV V :=
  { state := .empty, shouldCache := shouldCache, spawned := 0, flights := [] }

/-- What `get()` hands back: a synchronous value or an in-flight promise. -/
inductive PVGet (V : Type) where
  | value (v : V)
  | inflight (fid : Nat)
deriving DecidableEq

/-- `ProjectedValue.fetch` up to its suspension point: invoke the fetch
function (one more upstream call), set state `pending`, return the promise. -/
def PV.fetchStart (pv : PV V) : Nat × PV V :=
  let fid := pv.spawned
  (fid, { pv with
            state := .pending fid
            spawned := fid + 1
            flights := pv.flights ++ [.firstFetch fid] })

/-- `ProjectedValue.get`. -/
def PV.get (pv : PV V) : PVGet V × PV V :=
  match pv.state with
  | .resolved v => (.value v, pv)
  | .refreshing v _ => (.value v, pv)
  | .pending fid => (.inflight fid, pv)
  | .empty =>
    let p := pv.fetchStart
    (.inflight p.1, p.2)

/-- `ProjectedValue.clear`. -/
def PV.clear (pv : PV V) : PV V :=
  { pv with state := .empty }

/-- `ProjectedValue.triggerBackgroundRefresh(staleValue)` up to its suspension
point: one more upstream call; state becomes `refreshing` when a stale value
was captured, else `pending`. -/
def PV.triggerBackgroundRefresh (pv : PV V) (stale : Option V) : Nat × PV V :=
  let fid := pv.spawned
  let pv2 : PV V :=
    { pv with spawned := fid + 1, flights := pv.flights ++ [.bgRefresh fid stale] }
  match stale with
  | some v => (fid, { pv2 with state := .refreshing v fid })
  | none => (fid, { pv2 with state := .pending fid })

/-- `ProjectedValue.refresh` (synchronous return of `Maybe<V>`). -/
def PV.refresh (pv : PV V) : Option V × PV V :=
  match pv.state with
  | .refreshing v _ => (some v, pv)
  | .empty => (none, (pv.triggerBackgroundRefresh none).2)
  | .pending _ => (none, (pv.triggerBackgroundRefresh none).2)
  | .resolved v => (some v, (pv.triggerBackgroundRefresh (some v)).2)

/-- Outcome of the promise created by `fetch` or `triggerBackgroundRefresh`.
The background-refresh catch handler of projected-value.ts returns without
rethrowing, so on error that promise fulfills with `undefined`
(`fulfilled none`). -/
inductive PVOutcome (V : Type) where
  | fulfilled (v : Option V)
  | rejected
deriving DecidableEq

def PV.removeFlight (fid : Nat) : List (PVFlight V) → List (PVFlight V)
  | [] => []
  | f :: fs => if f.fid = fid then fs else f :: PV.removeFlight fid fs

def PV.findFlight (fid : Nat) (fs : List (PVFlight V)) : Option (PVFlight V) :=
  fs.find? (fun f => decide (f.fid = fid))

/-- Settlement of the upstream call with id `fid`: runs the continuation the
corresponding `.then`/`.catch` installed.  Neither continuation in
projected-value.ts inspects the current state before committing. -/
def PV.settle (pv : PV V) (fid : Nat) (result : Except Unit V) :
    Option (PVOutcome V) × PV V :=
  match PV.findFlight fid pv.flights with
  | none => (none, pv)
  | some flight =>
    let pv1 : PV V := { pv with flights := PV.removeFlight fid pv.flights }
    match flight, result with
    | .firstFetch _, .ok v =>
      (some (.fulfilled (some v)),
       { pv1 with state := if pv.shouldCache then .resolved v else .empty })
    | .firstFetch _, .error _ =>
      (some .rejected, { pv1 with state := .empty })
    | .bgRefresh _ _, .ok v =>
      (some (.fulfilled (some v)),
       { pv1 with state := if pv.shouldCache then .resolved v else .empty })
    | .bgRefresh _ stale, .error _ =>
      (some (.fulfilled none),
       { pv1 with
           state :=
             match stale, pv.shouldCache with
             | some s, true => .resolved s
             | _, _ => .empty })

/-- Iterated `get()` calls (the returned values are discarded). -/
def PV.getN (pv : PV V) : Nat → PV V
  | 0 => pv
  | n + 1 => (PV.get pv).2.getN n

/-! ## ProjectedMap (src/projected-map/projected-map.ts, first variant) -/

/-- The `CacheState<K, V>` tagged union of projected-map.ts; the materialized
map is an insertion-ordered association list. -/
inductive PMState (K V : Type) where
  | empty
  | pending (fid : Nat)
  | resolved (map : List (K × V))
  | refreshing (map : List (K × V)) (fid : Nat)
deriving DecidableEq

/-- An in-flight upstream call of a `ProjectedMap` with the stale map the
`triggerBackgroundRefresh` continuation closed over. -/
inductive PMFlight (K V : Type) where
  | firstFetch (fid : Nat)
  | bgRefresh (fid : Nat) (stale : Option (List (K × V)))
deriving DecidableEq

def PMFlight.fid : PMFlight K V → Nat
  | .firstFetch f => f
  | .bgRefresh f _ => f

/-- A `ProjectedMap<K, V>` instance.  `spawned` counts invocations of the
caller-supplied `values` fetch function. -/
structure PM (K V : Type) where
  state : PMState K V
  key : V → K
  shouldCache : Bool
  spawned : Nat
  flights : List (PMFlight K V)

/-- A fresh `ProjectedMap`. -/
def PM.mk0 (key : V → K) (shouldCache : Bool) : PM K V :=
  { state := .empty, key := key, shouldCache := shouldCache, spawned := 0, flights := [] }

/-- What `getCache()` hands back: the cached map or an in-flight promise. -/
inductive PMGet (K V : Type) where
  | value (m : List (K × V))
  | inflight (fid : Nat)
deriving DecidableEq

/-- `ProjectedMap.arrayToMap`: key each fetched item by the extractor
(`deepFreeze` elided). -/
def PM.arrayToMap [DecidableEq K] (pm : PM K V) (l : List V) : List (K × V) :=
  l.foldl (fun m v => mapSet m (pm.key v) v) []

/-- `ProjectedMap.fetch` up to its suspension point. -/
def PM.fetchStart (pm : PM K V) : Nat × PM K V :=
  let fid := pm.spawned
  (fid, { pm with
            state := .pending fid
            spawned := fid + 1
            flights := pm.flights ++ [.firstFetch fid] })

/-- `ProjectedMap.getCache` (the shared read path of every `get`-style call). -/
def PM.getCache (pm : PM K V) : PMGet K V × PM K V :=
  match pm.state with
  | .resolved m => (.value m, pm)
  | .refreshing m _ => (.value m, pm)
  | .pending fid => (.inflight fid, pm)
  | .empty =>
    let p := pm.fetchStart
    (.inflight p.1, p.2)

/-- `ProjectedMap.clear`. -/
def PM.clear (pm : PM K V) : PM K V :=
  { pm with state := .empty }

/-- `ProjectedMap.triggerBackgroundRefresh(staleMap)` up to its suspension
point; it returns the background promise itself. -/
def PM.triggerBackgroundRefresh (pm : PM K V) (stale : Option (List (K × V))) :
    Nat × PM K V :=
  let fid := pm.spawned
  let pm2 : PM K V :=
    { pm with spawned := fid + 1, flights := pm.flights ++ [.bgRefresh fid stale] }
  match stale with
  | some m => (fid, { pm2 with state := .refreshing m fid })
  | none => (fid, { pm2 with state := .pending fid })

/-- `ProjectedMap.refresh`: returns the promise (as a fid) handed to the
caller. -/
def PM.refresh (pm : PM K V) : Nat × PM K V :=
  match pm.state with
  | .refreshing _ fid => (fid, pm)
  | .empty => pm.triggerBackgroundRefresh none
  | .pending _ => pm.triggerBackgroundRefresh none
  | .resolved m => pm.triggerBackgroundRefresh (some m)

/-- Outcome of a `ProjectedMap` promise.  Unlike projected-value.ts, the
background-refresh catch handler of projected-map.ts rethrows, so on error the
promise returned by `refresh()` rejects. -/
inductive PMOutcome (K V : Type) where
  | fulfilled (m : List (K × V))
  | rejected
deriving DecidableEq

def PM.removeFlight (fid : Nat) : List (PMFlight K V) → List (PMFlight K V)
  | [] => []
  | f :: fs => if f.fid = fid then fs else f :: PM.removeFlight fid fs

def PM.findFlight (fid : Nat) (fs : List (PMFlight K V)) : Option (PMFlight K V) :=
  fs.find? (fun f => decide (f.fid = fid))

/-- Settlement of the upstream call with id `fid`.  As in projected-value.ts,
no continuation inspects the current state before committing. -/
def PM.settle [DecidableEq K] (pm : PM K V) (fid : Nat) (result : Except Unit (List V)) :
    Option (PMOutcome K V) × PM K V :=
  match PM.findFlight fid pm.flights with
  | none => (none, pm)
  | some flight =>
    let pm1 : PM K V := { pm with flights := PM.removeFlight fid pm.flights }
    match flight, result with
    | .firstFetch _, .ok arr =>
      let m := pm.arrayToMap arr
      (some (.fulfilled m),
       { pm1 with state := if pm.shouldCache then .resolved m else .empty })
    | .firstFetch _, .error _ =>
      (some .rejected, { pm1 with state := .empty })
    | .bgRefresh _ _, .ok arr =>
      let m := pm.arrayToMap arr
      (some (.fulfilled m),
       { pm1 with state := if pm.shouldCache then .resolved m else .empty })
    | .bgRefresh _ stale, .error _ =>
      (some .rejected,
       { pm1 with
           state :=
             match stale, pm.shouldCache with
             | some s, true => .resolved s
             | _, _ => .empty })

/-! ## Resolver (src/projected-lazy-map/dispatcher.ts) -/

/-- `ConsumerValue<V>`: an entry of the per-chunk result map fanned out to the
consumers — either a value (possibly `undefined`, meaning not found) or the
error of a failed chunk. -/
inductive CVal (V : Type) where
  | value (v : Option V)
  | error
deriving DecidableEq

/-- How a Waiter's deferred promise settled. -/
inductive WOutcome (K V : Type) where
  | ok (m : List (K × Option V))
  | err
deriving DecidableEq

/-- One `resolve()` call's tracking record: the `pending` key set, the
`resolved` accumulator map and the deferred outcome (`none` while the consume
closure is still registered; in dispatcher.ts the closure is removed from
`this.consumers` exactly when the deferred settles). -/
structure Waiter (K V : Type) where
  wid : Nat
  keys : List K
  pending : List K
  resolvedAcc : List (K × Option V)
  outcome : Option (WOutcome K V)
deriving DecidableEq

/-- Accumulator for one run of the consume closure over a result map. -/
structure ConsumeAcc (K V : Type) where
  pending : List K
  resolvedAcc : List (K × Option V)
  errored : Bool

/-- One iteration of `results.forEach` inside the consume closure: an error
entry rejects the deferred (first rejection wins; the iteration continues),
a value entry is recorded and its key removed from `pending` — without any
check that the key was requested by this Waiter. -/
def consumeStep [DecidableEq K] (acc : ConsumeAcc K V) (entry : K × CVal V) :
    ConsumeAcc K V :=
  match entry.2 with
  | .error => { acc with errored := true }
  | .value v =>
    { acc with
        resolvedAcc := mapSet acc.resolvedAcc entry.1 v
        pending := acc.pending.filter (fun k => decide (k ≠ entry.1)) }

/-- The consume closure of `Resolver.resolve`, applied to one fanned-out
result map.  A deferred settles only once: a rejection during the loop wins
over the `resolve` issued after it, and a settled Waiter (already removed from
`this.consumers`) is never called again. -/
def Waiter.consume [DecidableEq K] (w : Waiter K V) (results : List (K × CVal V)) :
    Waiter K V :=
  if w.outcome.isSome then w
  else
    let acc := results.foldl consumeStep ⟨w.pending, w.resolvedAcc, false⟩
    if acc.errored then
      { w with pending := acc.pending, resolvedAcc := acc.resolvedAcc, outcome := some .err }
    else if acc.pending = [] then
      { w with pending := [], resolvedAcc := acc.resolvedAcc,
               outcome := some (.ok acc.resolvedAcc) }
    else
      { w with pending := acc.pending, resolvedAcc := acc.resolvedAcc }

/-- A `Resolver<K, V>` instance.  `calls` records, in order, the key list of
every upstream `values(keys)` invocation made so far; `waiters` keeps every
registered Waiter (those with `outcome = none` are the live consumer set). -/
structure Resolver (K V : Type) where
  key : V → K
  truthy : V → Bool
  maxChunkSize : Nat
  queue : List K
  timerArmed : Bool
  waiters : List (Waiter K V)
  nextWid : Nat
  calls : List (List K)

/-- An idle resolver as built by the constructor. -/
def Resolver.mk0 (key : V → K) (truthy : V → Bool) (maxChunkSize : Nat) :
    Resolver K V :=
  { key := key, truthy := truthy, maxChunkSize := maxChunkSize,
    queue := [], timerArmed := false, waiters := [], nextWid := 0, calls := [] }

/-- Structural helper for `chunksOf`: the fuel bounds the number of loop
iterations (each iteration removes at least one key, so `q.length` fuel is
always enough). -/
def chunksOfAux (M : Nat) : Nat → List K → List (List K) × List K
  | 0, q => ([], q)
  | fuel + 1, q =>
    if M = 0 then ([], q)
    else if M < q.length then
      (q.take M :: (chunksOfAux M fuel (q.drop M)).1, (chunksOfAux M fuel (q.drop M)).2)
    else ([], q)

/-- The while-loop of `Resolver.schedule`: as long as the queue is strictly
larger than `maxChunkSize`, slice off the first `maxChunkSize` keys as a chunk
(removing them from the queue).  Returns the dispatched chunks and the
remaining queue.  With `maxChunkSize = 0` the JS loop would spin forever
dispatching empty chunks; that degenerate configuration is cut short here. -/
def chunksOf (M : Nat) (q : List K) : List (List K) × List K :=
  chunksOfAux M q.length q

/-- `Resolver.schedule`: dispatch over-threshold chunks immediately, then make
sure a flush timer is armed (the loop clears the timer before each immediate
dispatch and the final guard re-arms it; in every path the method leaves the
timer armed). -/
def Resolver.schedule (r : Resolver K V) : Resolver K V :=
  let p := chunksOf r.maxChunkSize r.queue
  { r with queue := p.2, calls := r.calls ++ p.1, timerArmed := true }

/-- `Resolver.dispatch` up to its suspension point: slice up to `maxChunkSize`
keys off the queue; an empty chunk returns early without an upstream call. -/
def Resolver.dispatchStart (r : Resolver K V) : Resolver K V × List K :=
  let chunk := r.queue.take r.maxChunkSize
  if chunk.isEmpty then (r, [])
  else ({ r with queue := r.queue.drop r.maxChunkSize, calls := r.calls ++ [chunk] }, chunk)

/-- The flush-timer callback: clear the timer, then dispatch one chunk. -/
def Resolver.timerFire (r : Resolver K V) : Resolver K V × List K :=
  Resolver.dispatchStart { r with timerArmed := false }

/-- The result map built by `Resolver.dispatch` for a successful upstream
call: every dispatched key defaults to `value undefined` (absent) and each
truthy fetched item overwrites the entry at its extracted key (a falsy or
`undefined` item is skipped and its key stays absent). -/
def chunkResults [DecidableEq K] (kf : V → K) (tr : V → Bool)
    (chunk : List K) (fetched : List (Option V)) : List (K × CVal V) :=
  fetched.foldl
    (fun acc ov =>
      if jsTruthy tr ov then
        match ov with
        | some v => mapSet acc (kf v) (.value (some v))
        | none => acc
      else acc)
    (chunk.map (fun k => (k, CVal.value none)))

/-- The result map built when the upstream call rejects: every dispatched key
is marked with the error. -/
def chunkError (chunk : List K) : List (K × CVal V) :=
  chunk.map (fun k => (k, CVal.error))

/-- `this.consumers.forEach((consume) => consume(results))`: every registered
consume closure runs on the chunk's results. -/
def Resolver.fanOut [DecidableEq K] (r : Resolver K V) (results : List (K × CVal V)) :
    Resolver K V :=
  { r with waiters := r.waiters.map (fun w => w.consume results) }

/-- Settlement of a dispatched chunk whose upstream call fulfilled with
`fetched`. -/
def Resolver.settleCallOk [DecidableEq K] (r : Resolver K V) (chunk : List K)
    (fetched : List (Option V)) : Resolver K V :=
  r.fanOut (chunkResults r.key r.truthy chunk fetched)

/-- Settlement of a dispatched chunk whose upstream call rejected. -/
def Resolver.settleCallErr [DecidableEq K] (r : Resolver K V) (chunk : List K) :
    Resolver K V :=
  r.fanOut (chunkError chunk)

/-- `Resolver.resolve(keys)` up to its return: register a Waiter, enqueue the
keys (set union) and run `schedule`.  Returns the new Waiter's id. -/
def Resolver.resolveStart [DecidableEq K] (r : Resolver K V) (keys : List K) :
    Nat × Resolver K V :=
  let w : Waiter K V :=
    { wid := r.nextWid, keys := keys, pending := jsSetOfList keys,
      resolvedAcc := [], outcome := none }
  let r2 : Resolver K V :=
    { r with waiters := r.waiters ++ [w], nextWid := r.nextWid + 1,
             queue := keys.foldl jsSetAdd r.queue }
  (w.wid, r2.schedule)

/-! ## ProjectedLazyMap (two variants in src, sharing the KeyStore model)

The KeyStore (`ProjectedMapCache`) is modelled as an insertion-ordered
association list; only its `get`/`set`/`delete`/`clear` behaviour matters for
the claims.  The Dispatcher interaction is observed through the key list a
method passes to `Resolver.resolve` (`none` = the Dispatcher is not invoked).
-/

/-- A `ProjectedLazyMap<K, V>` instance: its KeyStore contents plus the
configured key extractor and the JS truthiness of values. -/
structure LM (K V : Type) where
  cache : List (K × V)
  key : V → K
  truthy : V → Bool

/-- Outcome of the first, synchronous segment of a read: either a synchronous
answer from the KeyStore or a delegation to the Dispatcher. -/
inductive LMRead (K V A : Type) where
  | sync (a : A)
  | viaDispatcher (arg : List K)
deriving DecidableEq

/-- First variant of `ProjectedLazyMap.getByKeysSparse` up to its suspension
point: hits are the `defined` cached values, `foundMap` keys them by the
extractor, `missingKeys` are the requested keys absent from `foundMap`; if
none are missing the hits are returned as they are, otherwise
`this.fetcher.resolve(keys)` is called with the FULL requested key list. -/
def LM.sparseV1Start [DecidableEq K] (lm : LM K V) (keys : List K) :
    LMRead K V (List V) :=
  if keys.isEmpty then .sync []
  else
    let hits := (keys.map (fun k => mapGet lm.cache k)).reduceOption
    let foundMap := hits.foldl (fun m v => mapSet m (lm.key v) v) ([] : List (K × V))
    let missingKeys := keys.filter (fun k => (mapGet foundMap k).isNone)
    if missingKeys.isEmpty then .sync hits else .viaDispatcher keys

/-- Shared shape of the write-back loops of both ProjectedLazyMap variants:
for each entry of the Dispatcher's result map, a falsy/`undefined` value is
skipped (`if (!value) return`), a truthy value is written to the
`foundMap` accumulator and the KeyStore under `keyOf entryKey value`.  The
first variant writes under the extracted key (`keyOf _ v = key v`), the
second under the result map's own key (`keyOf k _ = k`).  The accumulator is
(foundMap, KeyStore, `set` calls made so far). -/
def writeBack [DecidableEq K] (tr : V → Bool) (keyOf : K → V → K)
    (fetched : List (K × Option V))
    (acc : List (K × V) × List (K × V) × List (K × V)) :
    List (K × V) × List (K × V) × List (K × V) :=
  fetched.foldl
    (fun acc e =>
      match e.2 with
      | some v =>
        if tr v then
          (mapSet acc.1 (keyOf e.1 v) v,
           mapSet acc.2.1 (keyOf e.1 v) v,
           acc.2.2 ++ [(keyOf e.1 v, v)])
        else acc
      | none => acc)
    acc

/-- First variant, continuation on the Dispatcher's result map: every truthy
fetched value is written to `foundMap` and the KeyStore under its extracted
key; `undefined`/falsy results are skipped.  Returns the result array (in
requested order), the updated map and the `set` calls that were made. -/
def LM.sparseV1Commit [DecidableEq K] (lm : LM K V) (keys : List K)
    (fetched : List (K × Option V)) :
    List (Option V) × LM K V × List (K × V) :=
  let foundMap :=
    ((keys.map (fun k => mapGet lm.cache k)).reduceOption).foldl
      (fun m v => mapSet m (lm.key v) v) ([] : List (K × V))
  let step := writeBack lm.truthy (fun _ v => lm.key v) fetched (foundMap, lm.cache, [])
  (keys.map (fun k => mapGet step.1 k), { lm with cache := step.2.1 }, step.2.2)

/-- Second variant of `ProjectedLazyMap.getByKeysSparse` up to its suspension
point: partition the requested keys by a truthy KeyStore hit; if none are
missing answer synchronously from `foundMap`, otherwise call
`this.fetcher.resolve(missingKeys)` with exactly the missing subset. -/
def LM.sparseV2Start [DecidableEq K] (lm : LM K V) (keys : List K) :
    LMRead K V (List (Option V)) :=
  if keys.isEmpty then .sync []
  else
    let part :=
      keys.foldl
        (fun (acc : List (K × V) × List K) k =>
          match mapGet lm.cache k with
          | some hit => if lm.truthy hit then (mapSet acc.1 k hit, acc.2) else (acc.1, acc.2 ++ [k])
          | none => (acc.1, acc.2 ++ [k]))
        (([] : List (K × V)), ([] : List K))
    if part.2.isEmpty then .sync (keys.map (fun k => mapGet part.1 k))
    else .viaDispatcher part.2

/-- Second variant, continuation on the Dispatcher's result map: every truthy
entry is written to `foundMap` and the KeyStore under the RESULT MAP's key;
`undefined`/falsy entries are skipped. -/
def LM.sparseV2Commit [DecidableEq K] (lm : LM K V) (keys : List K)
    (fetched : List (K × Option V)) :
    List (Option V) × LM K V × List (K × V) :=
  let foundMap :=
    keys.foldl
      (fun (m : List (K × V)) k =>
        match mapGet lm.cache k with
        | some hit => if lm.truthy hit then mapSet m k hit else m
        | none => m)
      ([] : List (K × V))
  let step := writeBack lm.truthy (fun k _ => k) fetched (foundMap, lm.cache, [])
  (keys.map (fun k => mapGet step.1 k), { lm with cache := step.2.1 }, step.2.2)

/-- First variant of `ProjectedLazyMap.getByKey`: a truthy KeyStore hit is
returned synchronously; otherwise the call falls through to
`getByKeysSparse([key])`. -/
def LM.getByKeyV1 [DecidableEq K] (lm : LM K V) (k : K) :
    LMRead K V (Option V) :=
  if jsTruthy lm.truthy (mapGet lm.cache k) then .sync (mapGet lm.cache k)
  else
    match lm.sparseV1Start [k] with
    | .sync hits => .sync hits.head?
    | .viaDispatcher arg => .viaDispatcher arg

/-- Second variant of `ProjectedLazyMap.getByKey`: a truthy KeyStore hit is
returned synchronously; otherwise `this.fetcher.resolve([key])` is called
directly. -/
def LM.getByKeyV2 [DecidableEq K] (lm : LM K V) (k : K) :
    LMRead K V (Option V) :=
  if jsTruthy lm.truthy (mapGet lm.cache k) then .sync (mapGet lm.cache k)
  else .viaDispatcher [k]

/-- The background write-back of `ProjectedLazyMap.refresh` (first variant):
each truthy value of the Dispatcher's result map is written to the KeyStore
under its extracted key; the `catch` leaves the KeyStore untouched.  (The
refresh loop has no `foundMap`; the corresponding accumulator slot is unused.) -/
def LM.refreshCommitV1 [DecidableEq K] (lm : LM K V)
    (fetched : List (K × Option V)) : LM K V × List (K × V) :=
  let step := writeBack lm.truthy (fun _ v => lm.key v) fetched ([], lm.cache, [])
  ({ lm with cache := step.2.1 }, step.2.2)

/-- The background write-back of `ProjectedLazyMap.refresh` (second variant):
writes are keyed by the result map's key. -/
def LM.refreshCommitV2 [DecidableEq K] (lm : LM K V)
    (fetched : List (K × Option V)) : LM K V × List (K × V) :=
  let step := writeBack lm.truthy (fun k _ => k) fetched ([], lm.cache, [])
  ({ lm with cache := step.2.1 }, step.2.2)

/-! ## Concrete instances and traces used by counterexamples and witnesses -/

/-- A cached `ProjectedValue` holding 7, nothing in flight. -/
def pvR : PV Nat :=
  { state := .resolved 7, shouldCache := true, spawned := 1, flights := [] }

/-- A cached `ProjectedMap` holding the singleton map 3 ↦ 30. -/
def pmR : PM Nat Nat :=
  { state := .resolved [(3, 30)], key := fun v => v, shouldCache := true,
    spawned := 1, flights := [] }

/-- A `ProjectedValue` in state `pending 5`, its first fetch in flight. -/
def pvP : PV Nat :=
  { state := .pending 5, shouldCache := true, spawned := 6, flights := [.firstFetch 5] }

/-- A `ProjectedMap` in state `pending 5`. -/
def pmP : PM Nat Nat :=
  { state := .pending 5, key := fun v => v, shouldCache := true,
    spawned := 6, flights := [.firstFetch 5] }

/-- A `ProjectedValue` in state `refreshing 7 5`. -/
def pvF : PV Nat :=
  { state := .refreshing 7 5, shouldCache := true, spawned := 6,
    flights := [.bgRefresh 5 (some 7)] }

/-- A `ProjectedMap` in state `refreshing [(3, 30)] 5`. -/
def pmF : PM Nat Nat :=
  { state := .refreshing [(3, 30)] 5, key := fun v => v, shouldCache := true,
    spawned := 6, flights := [.bgRefresh 5 (some [(3, 30)])] }

/-- Dispatcher trace for C2: identity keys, every value truthy (objects).
Waiter 0 asks for key 0, Waiter 1 for key 1; the two keys end up in separate
chunks because the second `resolve` arrives after the first flush. -/
def rC2a : Resolver Nat Nat := Resolver.mk0 (fun v => v) (fun _ => true) 1000

/-- C2 trace, after `resolve([0])`: key 0 queued, flush timer armed. -/
def rC2b : Resolver Nat Nat := (rC2a.resolveStart [0]).2

/-- C2 trace, after the flush timer fires: chunk `[0]` is dispatched and its
upstream call is in flight (slow). -/
def rC2c : Resolver Nat Nat := (rC2b.timerFire).1

/-- C2 trace, after a later `resolve([1])` while chunk `[0]` is still in
flight: key 1 queued, a new flush timer armed. -/
def rC2d : Resolver Nat Nat := (rC2c.resolveStart [1]).2

/-- C2 trace, after the second flush timer fires: chunk `[1]` is dispatched
(fast). -/
def rC2e : Resolver Nat Nat := (rC2d.timerFire).1

/-- C2 trace, after the upstream call for chunk `[1]` rejects first (while the
call for chunk `[0]` is still in flight) and the call for chunk `[0]` then
fulfills with its item. -/
def rC2f : Resolver Nat Nat := (rC2e.settleCallErr [1]).settleCallOk [0] [some 0]

/-- A resolver with one registered Waiter asking for key 0 only (witness
instance for the amended C2). -/
def rC2w : Resolver Nat Nat :=
  { Resolver.mk0 (fun v => v) (fun _ => true) 1000 with
      waiters := [{ wid := 0, keys := [0], pending := [0], resolvedAcc := [],
                    outcome := none }] }

/-- Resolver with `maxChunkSize = 2` and five queued keys (witness instance
for C6). -/
def rC6 : Resolver Nat Nat :=
  { Resolver.mk0 (fun v => v) (fun _ => true) 2 with queue := [0, 1, 2, 3, 4] }

/-- An idle resolver (instance for C8). -/
def rC8 : Resolver Nat Nat := Resolver.mk0 (fun v => v) (fun _ => true) 1000

/-- Dispatcher trace for C9: large chunk size, identity keys.  Two concurrent
`resolve` calls land in one chunk. -/
def rC9a : Resolver Nat Nat := Resolver.mk0 (fun v => v) (fun _ => true) 1000

/-- C9 trace, after `resolve([0])`. -/
def rC9b : Resolver Nat Nat := (rC9a.resolveStart [0]).2

/-- C9 trace, after a concurrent `resolve([1])`. -/
def rC9c : Resolver Nat Nat := (rC9b.resolveStart [1]).2

/-- C9 trace, after the flush timer fires: the single chunk `[0, 1]` is
dispatched. -/
def rC9d : Resolver Nat Nat := (rC9c.timerFire).1

/-- C9 trace, after the chunk's upstream call fulfills with both items. -/
def rC9e : Resolver Nat Nat := rC9d.settleCallOk [0, 1] [some 0, some 1]

/-- LazyMap with key 1 cached (instance for C4). -/
def lmC4 : LM Nat Nat := { cache := [(1, 1)], key := fun v => v, truthy := fun _ => true }

/-- LazyMap with key 5 cached (witness instance for C7); key 2 will be
requested and come back not found. -/
def lmC7 : LM Nat Nat := { cache := [(5, 5)], key := fun v => v, truthy := fun _ => true }

/-- LazyMap whose KeyStore holds the falsy value 0 under key 0 (instance for
C10; truthiness of a number is "non-zero"). -/
def lmC10 : LM Nat Nat :=
  { cache := [(0, 0)], key := fun v => v, truthy := fun v => decide (v ≠ 0) }

/-! ## Helper lemmas -/

theorem mapGet_mapSet_ne [DecidableEq K] (m : List (K × A)) (k kw : K) (a : A)
    (h : kw ≠ k) : mapGet (mapSet m kw a) k = mapGet m k := by
  induction m with
  | nil => simp [mapGet, mapSet, h]
  | cons p ps ih =>
    by_cases hp : p.1 = kw
    · simp [mapGet, mapSet, hp, h]
    · simp only [mapSet, if_neg hp, mapGet]
      by_cases hk : p.1 = k
      · simp [hk]
      · simp [hk, ih]

theorem getN_pending (pv : PV V) (fid : Nat) (h : pv.state = .pending fid) :
    ∀ n, PV.getN pv n = pv := by
  have hget : PV.get pv = (.inflight fid, pv) := by
    unfold PV.get
    rw [h]
  intro n
  induction n with
  | zero => rfl
  | succ n ih =>
    show ((PV.get pv).2).getN n = pv
    rw [hget]
    exact ih

theorem consume_of_settled [DecidableEq K] (w : Waiter K V)
    (results : List (K × CVal V)) (h : w.outcome.isSome) :
    w.consume results = w := by
  unfold Waiter.consume
  simp [h]

theorem foldl_consumeStep_errored [DecidableEq K] (l : List (K × CVal V)) :
    ∀ acc : ConsumeAcc K V, acc.errored = true →
      (l.foldl consumeStep acc).errored = true := by
  induction l with
  | nil => intro acc h; simpa using h
  | cons e es ih =>
    intro acc h
    obtain ⟨k, cv⟩ := e
    cases cv with
    | value v => exact ih _ (by simpa [consumeStep] using h)
    | error => exact ih _ (by simp [consumeStep])

theorem consume_chunkError [DecidableEq K] (w : Waiter K V) (chunk : List K)
    (hne : chunk ≠ []) (hw : w.outcome = none) :
    (w.consume (chunkError chunk)).outcome = some WOutcome.err := by
  obtain ⟨k0, ks, rfl⟩ := List.exists_cons_of_ne_nil hne
  have herr :
      ((chunkError (k0 :: ks) : List (K × CVal V)).foldl consumeStep
        ⟨w.pending, w.resolvedAcc, false⟩).errored = true := by
    simp only [chunkError, List.map_cons, List.foldl_cons]
    exact foldl_consumeStep_errored _ _ (by simp [consumeStep])
  unfold Waiter.consume
  simp only [hw, Option.isSome_none, Bool.false_eq_true, if_false]
  simp [chunkError] at herr ⊢
  simp [herr]

theorem writeBack_frame [DecidableEq K] (tr : V → Bool) (keyOf : K → V → K) (k : K) :
    ∀ (fetched : List (K × Option V)),
      (∀ p ∈ fetched, ∀ v, p.2 = some v → tr v = true → keyOf p.1 v ≠ k) →
      ∀ acc : List (K × V) × List (K × V) × List (K × V),
        mapGet (writeBack tr keyOf fetched acc).2.1 k = mapGet acc.2.1 k
        ∧ (∀ w ∈ (writeBack tr keyOf fetched acc).2.2, w.1 = k → w ∈ acc.2.2) := by
  intro fetched
  induction fetched with
  | nil => intro _ acc; exact ⟨rfl, fun w hw _ => hw⟩
  | cons e es ih =>
    intro h acc
    obtain ⟨ek, ev⟩ := e
    have hes : ∀ p ∈ es, ∀ v, p.2 = some v → tr v = true → keyOf p.1 v ≠ k :=
      fun p hp => h p (List.mem_cons_of_mem _ hp)
    cases ev with
    | none =>
      have : writeBack tr keyOf ((ek, none) :: es) acc = writeBack tr keyOf es acc := by
        simp [writeBack]
      rw [this]
      exact ih hes acc
    | some v =>
      by_cases htr : tr v = true
      · have hk : keyOf ek v ≠ k := h (ek, some v) (List.mem_cons_self _ _) v rfl htr
        have hstep :
            writeBack tr keyOf ((ek, some v) :: es) acc
              = writeBack tr keyOf es
                  (mapSet acc.1 (keyOf ek v) v,
                   mapSet acc.2.1 (keyOf ek v) v,
                   acc.2.2 ++ [(keyOf ek v, v)]) := by
          simp [writeBack, htr]
        rw [hstep]
        obtain ⟨hc, hws⟩ := ih hes
          (mapSet acc.1 (keyOf ek v) v, mapSet acc.2.1 (keyOf ek v) v,
           acc.2.2 ++ [(keyOf ek v, v)])
        refine ⟨hc.trans (mapGet_mapSet_ne _ _ _ _ hk), ?_⟩
        intro w hwmem hwk
        rcases List.mem_append.mp (hws w hwmem hwk) with hin | hin
        · exact hin
        · have hw1 : w.1 = keyOf ek v := by rw [List.mem_singleton.mp hin]
          exact absurd (hw1 ▸ hwk) hk
      · have : writeBack tr keyOf ((ek, some v) :: es) acc = writeBack tr keyOf es acc := by
          simp [writeBack, htr]
        rw [this]
        exact ih hes acc

theorem chunksOf_nil (M : Nat) : chunksOf M ([] : List K) = ([], []) := rfl

theorem chunksOfAux_spec (M : Nat) (hM : 0 < M) :
    ∀ (fuel : Nat) (q : List K), q.length ≤ fuel →
      (chunksOfAux M fuel q).1.length = (q.length - 1) / M
      ∧ (chunksOfAux M fuel q).1.flatten ++ (chunksOfAux M fuel q).2 = q
      ∧ (∀ c ∈ (chunksOfAux M fuel q).1, c.length = M)
      ∧ (chunksOfAux M fuel q).2.length ≤ M
      ∧ ((chunksOfAux M fuel q).2 = [] ↔ q = []) := by
  have hM0 : M ≠ 0 := Nat.pos_iff_ne_zero.mp hM
  intro fuel
  induction fuel with
  | zero =>
    intro q hq
    have hqe : q = [] := List.length_eq_zero.mp (Nat.le_zero.mp hq)
    subst hqe
    simp [chunksOfAux]
  | succ n ih =>
    intro q hq
    by_cases h : M < q.length
    · have hun : chunksOfAux M (n + 1) q
          = (q.take M :: (chunksOfAux M n (q.drop M)).1, (chunksOfAux M n (q.drop M)).2) := by
        simp only [chunksOfAux, if_neg hM0, if_pos h]
      obtain ⟨ih1, ih2, ih3, ih4, ih5⟩ := ih (q.drop M) (by rw [List.length_drop]; omega)
      rw [hun]
      refine ⟨?_, ?_, ?_, ih4, ?_⟩
      · simp only [List.length_cons, ih1, List.length_drop]
        have e1 : q.length - 1 = (q.length - M - 1) + M := by omega
        rw [e1, Nat.add_div_right _ hM]
      · simp only [List.flatten_cons]
        rw [List.append_assoc, ih2, List.take_append_drop]
      · intro c hc
        rcases List.mem_cons.mp hc with rfl | hc2
        · rw [List.length_take]
          omega
        · exact ih3 c hc2
      · constructor
        · intro hr
          have hd : q.drop M = [] := ih5.mp hr
          have hlen : q.length - M = 0 := by
            simpa [List.length_drop] using congrArg List.length hd
          exact absurd hlen (by omega)
        · intro hq0
          subst hq0
          simp at h
    · have hun : chunksOfAux M (n + 1) q = ([], q) := by
        simp only [chunksOfAux, if_neg hM0, if_neg h]
      rw [hun]
      push_neg at h
      refine ⟨?_, by simp, by simp, h, Iff.rfl⟩
      have hlt : q.length - 1 < M := by omega
      simp [Nat.div_eq_of_lt hlt]

theorem chunksOf_spec (M : Nat) (hM : 0 < M) (q : List K) :
    (chunksOf M q).1.length = (q.length - 1) / M
    ∧ (chunksOf M q).1.flatten ++ (chunksOf M q).2 = q
    ∧ (∀ c ∈ (chunksOf M q).1, c.length = M)
    ∧ (chunksOf M q).2.length ≤ M
    ∧ ((chunksOf M q).2 = [] ↔ q = []) :=
  chunksOfAux_spec M hM q.length q le_rfl

theorem sparseV2_partition [DecidableEq K] (lm : LM K V) :
    ∀ (keys : List K) (fm : List (K × V)) (miss : List K),
      (keys.foldl
        (fun (acc : List (K × V) × List K) k =>
          match mapGet lm.cache k with
          | some hit => if lm.truthy hit then (mapSet acc.1 k hit, acc.2) else (acc.1, acc.2 ++ [k])
          | none => (acc.1, acc.2 ++ [k]))
        (fm, miss)).2
      = miss ++ keys.filter (fun k => !(jsTruthy lm.truthy (mapGet lm.cache k))) := by
  intro keys
  induction keys with
  | nil =>
    intro fm miss
    simp
  | cons k ks ih =>
    intro fm miss
    cases hg : mapGet lm.cache k with
    | none =>
      simp only [List.foldl_cons, hg, List.filter_cons]
      rw [ih]
      simp [jsTruthy, hg]
    | some hit =>
      by_cases ht : lm.truthy hit
      · simp only [List.foldl_cons, hg, if_pos ht, List.filter_cons]
        rw [ih]
        simp [jsTruthy, hg, ht]
      · simp only [List.foldl_cons, hg, if_neg ht, List.filter_cons]
        rw [ih]
        simp [jsTruthy, hg, ht]

theorem sparseV2Start_single_miss [DecidableEq K] (lm : LM K V) (k : K)
    (h : jsTruthy lm.truthy (mapGet lm.cache k) = false) :
    lm.sparseV2Start [k] = LMRead.viaDispatcher [k] := by
  unfold LM.sparseV2Start
  cases hg : mapGet lm.cache k with
  | none => simp [hg]
  | some hit =>
    have ht : lm.truthy hit = false := by simpa [jsTruthy, hg] using h
    simp [hg, ht]

theorem sparseV1Start_single_miss [DecidableEq K] (lm : LM K V) (k : K)
    (h : mapGet lm.cache k = none) :
    lm.sparseV1Start [k] = LMRead.viaDispatcher [k] := by
  unfold LM.sparseV1Start
  simp [h, mapGet]

theorem getByKeyV2_miss [DecidableEq K] (lm : LM K V) (k : K)
    (h : jsTruthy lm.truthy (mapGet lm.cache k) = false) :
    lm.getByKeyV2 k = LMRead.viaDispatcher [k] := by
  unfold LM.getByKeyV2
  simp [h]

theorem isEmpty_false_of_ne_nil {l : List K} (h : l ≠ []) : l.isEmpty = false := by
  cases hl : l with
  | nil => exact absurd hl h
  | cons a t => rfl

theorem dispatchStart_short (r : Resolver K V)
    (hle : r.queue.length ≤ r.maxChunkSize) (hne : r.queue ≠ []) :
    r.dispatchStart = ({ r with queue := [], calls := r.calls ++ [r.queue] }, r.queue) := by
  unfold Resolver.dispatchStart
  have ht : r.queue.take r.maxChunkSize = r.queue := List.take_of_length_le hle
  have hd : r.queue.drop r.maxChunkSize = [] := List.drop_eq_nil_of_le hle
  have hie : r.queue.isEmpty = false := by
    cases hrr : r.queue with
    | nil => exact absurd hrr hne
    | cons a l => rfl
  rw [ht]
  simp [hie, hd]

/-! ## Claim theorems -/

/-- Claim C1 (amended): for every ValueCell and EagerMap, every concurrent
caller of `get()` while the state is Pending receives the same in-flight
promise and the fetch function is invoked exactly once (any number of `get()`
calls starting from Empty invoke it once); a `refresh()` call made while a
background refresh is in flight (state Refreshing) reuses that in-flight
fetch.  (However — the correction — a `refresh()` made while a first-time
fetch is Pending starts a new upstream fetch instead of reusing the pending
one; see the counterexample.) -/
theorem c1_single_flight_amended {V K W : Type} :
    (∀ (pv : PV V) (fid : Nat), pv.state = PVState.pending fid →
      PV.get pv = (PVGet.inflight fid, pv))
    ∧ (∀ (pv : PV V) (v : V) (fid : Nat), pv.state = PVState.refreshing v fid →
      PV.refresh pv = (some v, pv))
    ∧ (∀ (pm : PM K W) (fid : Nat), pm.state = PMState.pending fid →
      PM.getCache pm = (PMGet.inflight fid, pm))
    ∧ (∀ (pm : PM K W) (m : List (K × W)) (fid : Nat),
      pm.state = PMState.refreshing m fid → PM.refresh pm = (fid, pm))
    ∧ (∀ (pv : PV V) (n : Nat), pv.state = PVState.empty →
      (PV.getN pv (n + 1)).spawned = pv.spawned + 1
      ∧ (PV.getN pv (n + 1)).state = PVState.pending pv.spawned) := by
  refine ⟨?_, ?_, ?_, ?_, ?_⟩
  · intro pv fid h
    unfold PV.get
    rw [h]
  · intro pv v fid h
    unfold PV.refresh
    rw [h]
  · intro pm fid h
    unfold PM.getCache
    rw [h]
  · intro pm m fid h
    unfold PM.refresh
    rw [h]
  · intro pv n h
    have h1 : PV.getN pv (n + 1) = (PV.get pv).2.getN n := rfl
    have hget : (PV.get pv).2 = (pv.fetchStart).2 := by
      unfold PV.get
      rw [h]
    have hstate : (pv.fetchStart).2.state = PVState.pending pv.spawned := rfl
    have hN : (pv.fetchStart).2.getN n = (pv.fetchStart).2 :=
      getN_pending _ pv.spawned hstate n
    rw [h1, hget, hN]
    exact ⟨rfl, rfl⟩

/-- Claim C1, counterexample: on a ValueCell whose first-time fetch is in
flight (state Pending with fid 0, one upstream invocation so far), `refresh()`
spawns a SECOND upstream invocation and replaces the state with a new pending
fid, instead of reusing the in-flight fetch; likewise for an EagerMap in state
Pending. -/
theorem c1_refresh_pending_counterexample :
    ((PV.get (PV.mk0 true : PV Nat)).2.state = PVState.pending 0)
    ∧ ((PV.get (PV.mk0 true : PV Nat)).2.spawned = 1)
    ∧ ((PV.refresh (PV.get (PV.mk0 true : PV Nat)).2).2.spawned = 2)
    ∧ ((PV.refresh (PV.get (PV.mk0 true : PV Nat)).2).2.state = PVState.pending 1)
    ∧ ((PM.refresh pmP).2.spawned = 7)
    ∧ ((PM.refresh pmP).2.state = PMState.pending 6) := by
  refine ⟨by decide, by decide, by decide, by decide, rfl, rfl⟩

/-- Claim C1, witness: the amended theorem applied to concrete pending and
refreshing cells. -/
theorem c1_witness :
    PV.get pvP = (PVGet.inflight 5, pvP)
    ∧ PV.refresh pvF = (some 7, pvF)
    ∧ PM.getCache pmP = (PMGet.inflight 5, pmP)
    ∧ PM.refresh pmF = (5, pmF)
    ∧ (PV.getN (PV.mk0 true : PV Nat) 3).spawned = 0 + 1 :=
  ⟨(c1_single_flight_amended (K := Nat) (W := Nat)).1 pvP 5 rfl,
   (c1_single_flight_amended (K := Nat) (W := Nat)).2.1 pvF 7 5 rfl,
   (c1_single_flight_amended (V := Nat)).2.2.1 pmP 5 rfl,
   (c1_single_flight_amended (V := Nat)).2.2.2.1 pmF [(3, 30)] 5 rfl,
   ((c1_single_flight_amended (K := Nat) (W := Nat)).2.2.2.2 (PV.mk0 true : PV Nat) 2 rfl).1⟩

/-- Claim C3 (amended): for a cell/map holding cached value V1, a failed
background refresh reverts the cached state to V1 and every subsequent
`get()` still returns V1.  For an EagerMap the promise returned by `refresh()`
rejects with the error; for a ValueCell, however, `refresh()` returns the
stale value synchronously and the refresh error is swallowed — the background
promise fulfills with `undefined` instead of rejecting. -/
theorem c3_swr_amended {V K W : Type} [DecidableEq K] :
    (∀ (pv : PV V) (v1 : V), pv.state = PVState.resolved v1 →
      pv.shouldCache = true → pv.flights = [] →
      (PV.refresh pv).1 = some v1
      ∧ (PV.settle (PV.refresh pv).2 pv.spawned (Except.error ())).1
          = some (PVOutcome.fulfilled none)
      ∧ (PV.get (PV.settle (PV.refresh pv).2 pv.spawned (Except.error ())).2).1
          = PVGet.value v1)
    ∧ (∀ (pm : PM K W) (m1 : List (K × W)), pm.state = PMState.resolved m1 →
      pm.shouldCache = true → pm.flights = [] →
      (PM.refresh pm).1 = pm.spawned
      ∧ (PM.settle (PM.refresh pm).2 pm.spawned (Except.error ())).1
          = some PMOutcome.rejected
      ∧ (PM.getCache (PM.settle (PM.refresh pm).2 pm.spawned (Except.error ())).2).1
          = PMGet.value m1) := by
  constructor
  · intro pv v1 hst hc hf
    have hrefresh : PV.refresh pv = (some v1, (pv.triggerBackgroundRefresh (some v1)).2) := by
      unfold PV.refresh
      rw [hst]
    refine ⟨by rw [hrefresh], ?_, ?_⟩
    · rw [hrefresh]
      unfold PV.triggerBackgroundRefresh PV.settle PV.findFlight
      simp [hf, PVFlight.fid, hc]
    · rw [hrefresh]
      unfold PV.triggerBackgroundRefresh PV.settle PV.findFlight PV.get
      simp [hf, PVFlight.fid, hc]
  · intro pm m1 hst hc hf
    have hrefresh : PM.refresh pm = pm.triggerBackgroundRefresh (some m1) := by
      unfold PM.refresh
      rw [hst]
    have hfst : (pm.triggerBackgroundRefresh (some m1)).1 = pm.spawned := rfl
    refine ⟨by rw [hrefresh, hfst], ?_, ?_⟩
    · rw [hrefresh]
      unfold PM.triggerBackgroundRefresh PM.settle PM.findFlight
      simp [hf, PMFlight.fid, hc]
    · rw [hrefresh]
      unfold PM.triggerBackgroundRefresh PM.settle PM.findFlight PM.getCache
      simp [hf, PMFlight.fid, hc]

/-- Claim C3, counterexample: on a ValueCell caching 7 whose refresh fetch
fails, the cached value is kept (get() still returns 7), but the refresh error
is NOT delivered to the refresh caller: `refresh()` returned the stale value
synchronously and the background promise fulfills with `undefined` rather than
rejecting. -/
theorem c3_counterexample :
    ((PV.refresh pvR).1 = some 7)
    ∧ ((PV.settle (PV.refresh pvR).2 1 (Except.error ())).1
        = some (PVOutcome.fulfilled none))
    ∧ (some (PVOutcome.fulfilled (none : Option Nat)) ≠ some PVOutcome.rejected)
    ∧ ((PV.get (PV.settle (PV.refresh pvR).2 1 (Except.error ())).2).1
        = PVGet.value 7) := by
  refine ⟨by decide, by decide, by decide, by decide⟩

/-- Claim C3, witness: the amended theorem applied to a ValueCell caching 7
and an EagerMap caching the map 3 ↦ 30. -/
theorem c3_witness :
    ((PV.get (PV.settle (PV.refresh pvR).2 pvR.spawned (Except.error ())).2).1
      = PVGet.value 7)
    ∧ ((PM.settle (PM.refresh pmR).2 pmR.spawned (Except.error ())).1
        = some PMOutcome.rejected)
    ∧ ((PM.getCache (PM.settle (PM.refresh pmR).2 pmR.spawned (Except.error ())).2).1
        = PMGet.value [(3, 30)]) :=
  ⟨((c3_swr_amended (K := Nat) (W := Nat)).1 pvR 7 rfl rfl rfl).2.2,
   ((c3_swr_amended (V := Nat)).2 pmR [(3, 30)] rfl rfl rfl).2.1,
   ((c3_swr_amended (V := Nat)).2 pmR [(3, 30)] rfl rfl rfl).2.2⟩

/-- Claim C5: the spec requires the commit to check that the state that
started the fetch is still current, so that a cell cleared mid-flight stays
Empty.  The code has no such guard: evaluating the trace "get() on an Empty
cell, clear() while Pending, then the fetch resolves" shows the cleared cell
IS repopulated — the ValueCell ends in `resolved 42` (not `empty`) and the
EagerMap in `resolved [(7, 7)]`. -/
theorem c5_clear_midflight_repopulates :
    ((PV.clear (PV.get (PV.mk0 true : PV Nat)).2).state = PVState.empty)
    ∧ ((PV.settle (PV.clear (PV.get (PV.mk0 true : PV Nat)).2) 0 (Except.ok 42)).2.state
        = PVState.resolved 42)
    ∧ ((PM.clear (PM.getCache (PM.mk0 (fun v => v) true : PM Nat Nat)).2).state
        = PMState.empty)
    ∧ ((PM.settle (PM.clear (PM.getCache (PM.mk0 (fun v => v) true : PM Nat Nat)).2) 0
          (Except.ok [7])).2.state = PMState.resolved [(7, 7)]) := by
  refine ⟨by decide, by decide, rfl, rfl⟩

/-- Claim C2 (amended): when a dispatched chunk's upstream call rejects, EVERY
Waiter still registered at fan-out time has its promise rejected — whether or
not its outstanding keys intersect the failed chunk (the consume closure
rejects on any error entry without checking the key).  A Waiter that already
settled (for example because all its keys were covered by earlier successful
chunks) is no longer registered and keeps its outcome. -/
theorem c2_failure_fanout_amended {K V : Type} [DecidableEq K]
    (r : Resolver K V) (chunk : List K) (hne : chunk ≠ [])
    (w : Waiter K V) (hw : w ∈ r.waiters) :
    (w.outcome = none →
      (Waiter.consume w (chunkError chunk)).outcome = some WOutcome.err
      ∧ Waiter.consume w (chunkError chunk) ∈ (r.settleCallErr chunk).waiters)
    ∧ (w.outcome.isSome →
      w ∈ (r.settleCallErr chunk).waiters) := by
  constructor
  · intro hnone
    refine ⟨consume_chunkError w chunk hne hnone, ?_⟩
    unfold Resolver.settleCallErr Resolver.fanOut
    exact List.mem_map_of_mem _ hw
  · intro hsome
    unfold Resolver.settleCallErr Resolver.fanOut
    have he : Waiter.consume w (chunkError chunk) = w := consume_of_settled w _ hsome
    simpa [he] using List.mem_map_of_mem (fun w => w.consume (chunkError chunk)) hw

/-- Claim C2, counterexample: Waiter 0 resolves key 0, whose chunk `[0]` is
flushed and is slow; Waiter 1 then resolves key 1, whose chunk `[1]` is
flushed by a second timer and rejects first.  BOTH Waiters end up rejected —
including Waiter 0, whose outstanding key 0 does not intersect the failed
chunk `[1]` and whose own chunk `[0]` later fulfills successfully. -/
theorem c2_counterexample :
    rC2f.calls = [[0], [1]]
    ∧ (rC2f.waiters.map (fun w => w.keys)) = [[0], [1]]
    ∧ (rC2f.waiters.map (fun w => w.outcome)) = [some WOutcome.err, some WOutcome.err]
    ∧ ¬ ((0 : Nat) ∈ [(1 : Nat)]) := by
  refine ⟨by decide, by decide, by decide, by decide⟩

/-- Claim C2, witness: the amended theorem applied to a resolver with one
registered Waiter asking only for key 0, fanned out with a failed chunk `[5]`
that does not intersect the Waiter's keys. -/
theorem c2_witness :
    (Waiter.consume
        { wid := 0, keys := [0], pending := [0], resolvedAcc := [], outcome := none }
        (chunkError [5])).outcome = some (WOutcome.err (K := Nat) (V := Nat))
    ∧ Waiter.consume
        { wid := 0, keys := [0], pending := [0], resolvedAcc := [], outcome := none }
        (chunkError [5]) ∈ (rC2w.settleCallErr [5]).waiters :=
  (c2_failure_fanout_amended rC2w [5] (by decide)
    { wid := 0, keys := [0], pending := [0], resolvedAcc := [], outcome := none }
    (by decide)).1 rfl

/-- Claim C6: with `Q` keys queued and `Q > maxChunkSize = M > 0`, running
`schedule` (which dispatches the over-threshold chunks immediately, removing
each chunk from the queue at dispatch time) followed by the timer flush of the
remainder issues exactly `ceil(Q / M)` upstream batch calls, each of at most
`M` keys, which together cover exactly the queued keys, leaving the queue
empty. -/
theorem c6_chunking_bound {K V : Type} (r : Resolver K V)
    (hM : 0 < r.maxChunkSize) (hQ : r.maxChunkSize < r.queue.length) :
    ((r.schedule.timerFire).1.calls).length
      = r.calls.length + (r.queue.length + r.maxChunkSize - 1) / r.maxChunkSize
    ∧ (∀ c ∈ ((r.schedule.timerFire).1.calls).drop r.calls.length,
        c.length ≤ r.maxChunkSize)
    ∧ (((r.schedule.timerFire).1.calls).drop r.calls.length).flatten = r.queue
    ∧ (r.schedule.timerFire).1.queue = [] := by
  obtain ⟨h1, h2, h3, h4, h5⟩ := chunksOf_spec r.maxChunkSize hM r.queue
  set M := r.maxChunkSize with hMdef
  set cs := (chunksOf M r.queue).1 with hcs
  set rest := (chunksOf M r.queue).2 with hrest
  have hrestne : rest ≠ [] := by
    intro hr
    have hq0 : r.queue = [] := h5.mp hr
    rw [hq0] at hQ
    simp at hQ
  have hTF : r.schedule.timerFire
      = ({ r with
            queue := ([] : List K)
            calls := (r.calls ++ cs) ++ [rest]
            timerArmed := false }, rest) :=
    dispatchStart_short
      { r with queue := rest, calls := r.calls ++ cs, timerArmed := false } h4 hrestne
  rw [hTF]
  refine ⟨?_, ?_, ?_, rfl⟩
  · simp only [List.append_assoc, List.length_append, List.length_cons,
      List.length_nil]
    rw [h1]
    have e1 : r.queue.length + M - 1 = (r.queue.length - 1) + M := by omega
    rw [e1, Nat.add_div_right _ hM]
  · intro c hc
    rw [List.append_assoc, List.drop_left] at hc
    rcases List.mem_append.mp hc with hin | hin
    · exact le_of_eq (h3 c hin)
    · rw [List.mem_singleton.mp hin]
      exact h4
  · rw [List.append_assoc, List.drop_left]
    simp only [List.flatten_append, List.flatten_cons, List.flatten_nil,
      List.append_nil]
    exact h2

/-- Claim C6, witness: the theorem applied to a resolver with
`maxChunkSize = 2` and queue `[0, 1, 2, 3, 4]`: three calls
(`ceil(5 / 2) = 3`). -/
theorem c6_witness :
    ((rC6.schedule.timerFire).1.calls).length
      = rC6.calls.length + (rC6.queue.length + rC6.maxChunkSize - 1) / rC6.maxChunkSize
    ∧ (((rC6.schedule.timerFire).1.calls).drop rC6.calls.length).flatten = rC6.queue
    ∧ (rC6.schedule.timerFire).1.queue = [] :=
  ⟨(c6_chunking_bound rC6 (by decide) (by decide)).1,
   (c6_chunking_bound rC6 (by decide) (by decide)).2.2.1,
   (c6_chunking_bound rC6 (by decide) (by decide)).2.2.2⟩

/-- Claim C8 (amended): `resolve([])` adds nothing to the pending-key queue,
but it DOES arm the flush timer (when the queue is empty no chunk is
dispatched and `schedule` leaves the timer armed), and its promise is NOT
resolved immediately: the new Waiter is registered unsettled, and even after
the timer fires (an empty-queue dispatch returns early without an upstream
call or fan-out) it is still unsettled.  It can only settle through the
fan-out of some later nonempty chunk. -/
theorem c8_empty_resolve_amended {K V : Type} [DecidableEq K]
    (r : Resolver K V) (hq : r.queue = []) :
    ((r.resolveStart ([] : List K)).2.queue = [])
    ∧ ((r.resolveStart ([] : List K)).2.calls = r.calls)
    ∧ ((r.resolveStart ([] : List K)).2.timerArmed = true)
    ∧ ((r.resolveStart ([] : List K)).2.waiters.getLast?
        = some { wid := r.nextWid, keys := [], pending := [], resolvedAcc := [],
                 outcome := none })
    ∧ (((r.resolveStart ([] : List K)).2.timerFire).1.calls = r.calls)
    ∧ (((r.resolveStart ([] : List K)).2.timerFire).1.waiters.getLast?
        = some { wid := r.nextWid, keys := [], pending := [], resolvedAcc := [],
                 outcome := none }) := by
  have hres : (r.resolveStart ([] : List K)).2
      = ({ r with
            waiters := r.waiters ++
              [{ wid := r.nextWid, keys := [], pending := [], resolvedAcc := [],
                 outcome := none }],
            nextWid := r.nextWid + 1,
            queue := r.queue } : Resolver K V).schedule := rfl
  rw [hres, hq]
  unfold Resolver.schedule
  rw [chunksOf_nil]
  refine ⟨rfl, by simp, rfl, List.getLast?_concat _, ?_, ?_⟩
  · unfold Resolver.timerFire Resolver.dispatchStart
    simp
  · unfold Resolver.timerFire Resolver.dispatchStart
    simp only [List.take_nil, List.isEmpty_nil, if_pos]
    exact List.getLast?_concat _
/-- Claim C8, counterexample: on an idle resolver, `resolve([])` arms the
flush timer (the claim says the timer is not touched) and does not resolve
the promise immediately (the Waiter is still unsettled, and remains unsettled
after the empty-queue timer flush, which makes no upstream call). -/
theorem c8_counterexample :
    ((rC8.resolveStart []).2.timerArmed = true)
    ∧ ((rC8.resolveStart []).2.waiters.map (fun w => w.outcome) = [none])
    ∧ (((rC8.resolveStart []).2.timerFire).1.calls = [])
    ∧ (((rC8.resolveStart []).2.timerFire).1.waiters.map (fun w => w.outcome) = [none]) := by
  refine ⟨by decide, by decide, by decide, by decide⟩

/-- Claim C8, witness: the amended theorem applied to the idle resolver. -/
theorem c8_witness :
    ((rC8.resolveStart ([] : List Nat)).2.queue = [])
    ∧ ((rC8.resolveStart ([] : List Nat)).2.timerArmed = true)
    ∧ ((rC8.resolveStart ([] : List Nat)).2.waiters.getLast?
        = some { wid := 0, keys := [], pending := [], resolvedAcc := [],
                 outcome := none }) :=
  ⟨(c8_empty_resolve_amended rC8 rfl).1,
   (c8_empty_resolve_amended rC8 rfl).2.2.1,
   (c8_empty_resolve_amended rC8 rfl).2.2.2.1⟩

/-- Claim C9: the map a Waiter's promise resolves with can contain entries for
keys that were never in that `resolve()` call's key list.  Concretely: two
concurrent `resolve([0])` and `resolve([1])` calls coalesce into the single
chunk `[0, 1]`; after the chunk fulfills, Waiter 0 (which requested only key
0) resolves with the map `{0 ↦ 0, 1 ↦ 1}`, whose domain strictly contains its
requested key set (key 1 was recorded by its consume closure although never
requested by it). -/
theorem c9_superset_resolution :
    rC9e.calls = [[0, 1]]
    ∧ (rC9e.waiters.map (fun w => w.keys)) = [[0], [1]]
    ∧ (rC9e.waiters.map (fun w => w.outcome))
        = [some (WOutcome.ok [(0, some 0), (1, some 1)]),
           some (WOutcome.ok [(0, some 0), (1, some 1)])]
    ∧ ¬ ((1 : Nat) ∈ [(0 : Nat)]) := by
  refine ⟨by decide, by decide, by decide, by decide⟩

/-- Claim C4 (amended): for `getByKeysSparse(keys)` with some keys cached and
some missing, the SECOND variant passes exactly the missing subset to the
Dispatcher's `resolve()`; the FIRST variant, however, passes the FULL
requested key list whenever at least one key is missing (its computed
`missingKeys` is used only for the emptiness test).  In both variants, if no
key is missing the answer comes from the KeyStore without invoking the
Dispatcher. -/
theorem c4_miss_fetch_amended {K V : Type} [DecidableEq K] (lm : LM K V) (keys : List K)
    (hne : keys ≠ []) :
    (keys.filter (fun k => !(jsTruthy lm.truthy (mapGet lm.cache k))) ≠ [] →
      lm.sparseV2Start keys
        = LMRead.viaDispatcher
            (keys.filter (fun k => !(jsTruthy lm.truthy (mapGet lm.cache k)))))
    ∧ (keys.filter (fun k => !(jsTruthy lm.truthy (mapGet lm.cache k))) = [] →
      ∃ a, lm.sparseV2Start keys = LMRead.sync a)
    ∧ (keys.filter
        (fun k => (mapGet (((keys.map (fun k => mapGet lm.cache k)).reduceOption).foldl
          (fun m v => mapSet m (lm.key v) v) ([] : List (K × V))) k).isNone) ≠ [] →
      lm.sparseV1Start keys = LMRead.viaDispatcher keys)
    ∧ (keys.filter
        (fun k => (mapGet (((keys.map (fun k => mapGet lm.cache k)).reduceOption).foldl
          (fun m v => mapSet m (lm.key v) v) ([] : List (K × V))) k).isNone) = [] →
      lm.sparseV1Start keys
        = LMRead.sync ((keys.map (fun k => mapGet lm.cache k)).reduceOption)) := by
  have hke : keys.isEmpty = false := isEmpty_false_of_ne_nil hne
  have hpart := sparseV2_partition lm keys [] []
  simp only [List.nil_append] at hpart
  refine ⟨?_, ?_, ?_, ?_⟩
  · intro hmiss
    unfold LM.sparseV2Start
    simp only [hke, Bool.false_eq_true, if_false, hpart,
      isEmpty_false_of_ne_nil hmiss]
  · intro hmiss
    unfold LM.sparseV2Start
    simp only [hke, Bool.false_eq_true, if_false, hpart, hmiss, List.isEmpty_nil,
      if_true]
    exact ⟨_, rfl⟩
  · intro hmiss
    unfold LM.sparseV1Start
    simp only [hke, Bool.false_eq_true, if_false, isEmpty_false_of_ne_nil hmiss]
  · intro hmiss
    unfold LM.sparseV1Start
    simp only [hke, Bool.false_eq_true, if_false, hmiss, List.isEmpty_nil, if_true]

/-- Claim C4, counterexample: a LazyMap (first variant) with key 1 cached,
asked for `[1, 2]`: key 2 is missing, and the Dispatcher's `resolve()` is
invoked with the FULL list `[1, 2]`, not with the missing subset `[2]` as the
claim states. -/
theorem c4_counterexample :
    lmC4.sparseV1Start [1, 2] = LMRead.viaDispatcher [1, 2]
    ∧ lmC4.sparseV1Start [1, 2] ≠ LMRead.viaDispatcher [2] := by
  refine ⟨by decide, by decide⟩

/-- Claim C4, witness: the amended theorem applied to the LazyMap with key 1
cached and request `[1, 2]`: the second variant dispatches `[2]`, the first
dispatches `[1, 2]`. -/
theorem c4_witness :
    lmC4.sparseV2Start [1, 2] = LMRead.viaDispatcher [2]
    ∧ lmC4.sparseV1Start [1, 2] = LMRead.viaDispatcher [1, 2] :=
  ⟨(c4_miss_fetch_amended lmC4 [1, 2] (by decide)).1 (by decide),
   (c4_miss_fetch_amended lmC4 [1, 2] (by decide)).2.2.1 (by decide)⟩

/-- Claim C7: a requested key for which the upstream fetch returns no matching
item (every result entry at that key, and every truthy fetched value's
extracted key, miss it) is never written to the KeyStore — no `set` call is
made for it and its KeyStore entry is untouched — in both variants of the
`getByKeysSparse` write-back and of the `refresh` write-back; and if the key
is absent from the KeyStore, a subsequent request for it invokes the
Dispatcher again. -/
theorem c7_notfound_noncaching {K V : Type} [DecidableEq K]
    (lm : LM K V) (keys : List K) (fetched : List (K × Option V)) (k : K)
    (hbykey : ∀ p ∈ fetched, p.1 = k → jsTruthy lm.truthy p.2 = false)
    (hbyext : ∀ p ∈ fetched, ∀ v, p.2 = some v → lm.truthy v = true → lm.key v ≠ k) :
    (∀ w ∈ (lm.sparseV1Commit keys fetched).2.2, w.1 ≠ k)
    ∧ (∀ w ∈ (lm.sparseV2Commit keys fetched).2.2, w.1 ≠ k)
    ∧ (∀ w ∈ (lm.refreshCommitV1 fetched).2, w.1 ≠ k)
    ∧ (∀ w ∈ (lm.refreshCommitV2 fetched).2, w.1 ≠ k)
    ∧ mapGet (lm.sparseV1Commit keys fetched).2.1.cache k = mapGet lm.cache k
    ∧ mapGet (lm.sparseV2Commit keys fetched).2.1.cache k = mapGet lm.cache k
    ∧ mapGet (lm.refreshCommitV1 fetched).1.cache k = mapGet lm.cache k
    ∧ mapGet (lm.refreshCommitV2 fetched).1.cache k = mapGet lm.cache k
    ∧ (mapGet lm.cache k = none →
      (lm.sparseV2Commit keys fetched).2.1.sparseV2Start [k] = LMRead.viaDispatcher [k]
      ∧ (lm.sparseV1Commit keys fetched).2.1.sparseV1Start [k] = LMRead.viaDispatcher [k]
      ∧ (lm.sparseV2Commit keys fetched).2.1.getByKeyV2 k = LMRead.viaDispatcher [k]) := by
  have hext : ∀ p ∈ fetched, ∀ v, p.2 = some v → lm.truthy v = true →
      (fun (_ : K) (v : V) => lm.key v) p.1 v ≠ k :=
    fun p hp v hv ht => hbyext p hp v hv ht
  have hmapk : ∀ p ∈ fetched, ∀ v, p.2 = some v → lm.truthy v = true →
      (fun (kk : K) (_ : V) => kk) p.1 v ≠ k := by
    intro p hp v hv ht hcon
    have hj := hbykey p hp hcon
    rw [hv] at hj
    simp [jsTruthy, ht] at hj
  have hfm1 := writeBack_frame lm.truthy (fun (_ : K) (v : V) => lm.key v) k fetched hext
  have hfm2 := writeBack_frame lm.truthy (fun (kk : K) (_ : V) => kk) k fetched hmapk
  have e1 : mapGet (lm.sparseV1Commit keys fetched).2.1.cache k = mapGet lm.cache k :=
    (hfm1 _).1
  have e2 : mapGet (lm.sparseV2Commit keys fetched).2.1.cache k = mapGet lm.cache k :=
    (hfm2 _).1
  have e3 : mapGet (lm.refreshCommitV1 fetched).1.cache k = mapGet lm.cache k :=
    (hfm1 _).1
  have e4 : mapGet (lm.refreshCommitV2 fetched).1.cache k = mapGet lm.cache k :=
    (hfm2 _).1
  refine ⟨?_, ?_, ?_, ?_, e1, e2, e3, e4, ?_⟩
  · intro w hw hwk
    exact (List.not_mem_nil w) ((hfm1 _).2 w hw hwk)
  · intro w hw hwk
    exact (List.not_mem_nil w) ((hfm2 _).2 w hw hwk)
  · intro w hw hwk
    exact (List.not_mem_nil w) ((hfm1 _).2 w hw hwk)
  · intro w hw hwk
    exact (List.not_mem_nil w) ((hfm2 _).2 w hw hwk)
  · intro hnone
    have h2 : mapGet (lm.sparseV2Commit keys fetched).2.1.cache k = none :=
      e2.trans hnone
    have h1 : mapGet (lm.sparseV1Commit keys fetched).2.1.cache k = none :=
      e1.trans hnone
    refine ⟨sparseV2Start_single_miss _ k ?_, sparseV1Start_single_miss _ k h1,
      getByKeyV2_miss _ k ?_⟩
    · rw [h2]
      rfl
    · rw [h2]
      rfl

/-- Claim C7, witness: a LazyMap caching key 5, requesting key 2 which the
upstream fetch reports as not found: the KeyStore is untouched at key 2, no
`set` call is made, and a repeated request for key 2 goes to the Dispatcher
again. -/
theorem c7_witness :
    (∀ w ∈ (lmC7.sparseV2Commit [2] [(2, none)]).2.2, w.1 ≠ 2)
    ∧ mapGet (lmC7.sparseV2Commit [2] [(2, none)]).2.1.cache 2 = mapGet lmC7.cache 2
    ∧ (lmC7.sparseV2Commit [2] [(2, none)]).2.1.sparseV2Start [2]
        = LMRead.viaDispatcher [2] :=
  ⟨(c7_notfound_noncaching lmC7 [2] [(2, none)] 2 (by decide)
      (fun p hp v hv ht => by
        simp only [List.mem_singleton] at hp
        subst hp
        exact Option.noConfusion hv)).2.1,
   (c7_notfound_noncaching lmC7 [2] [(2, none)] 2 (by decide)
      (fun p hp v hv ht => by
        simp only [List.mem_singleton] at hp
        subst hp
        exact Option.noConfusion hv)).2.2.2.2.2.1,
   ((c7_notfound_noncaching lmC7 [2] [(2, none)] 2 (by decide)
      (fun p hp v hv ht => by
        simp only [List.mem_singleton] at hp
        subst hp
        exact Option.noConfusion hv)).2.2.2.2.2.2.2.2 rfl).1⟩

/-- Claim C10 (amended): presence is decided by JS truthiness — but the two
sides behave differently.  The Dispatcher does treat a falsy fetched item as
not found (its key stays mapped to absent in the chunk's result map), and the
second variant's `getByKey` re-fetches a falsy KeyStore hit; the FIRST
variant's `getByKey` treats the falsy hit as a miss at its own truthiness
check but then delegates to `getByKeysSparse`, whose `defined`-based partition
serves the falsy cached value synchronously from the KeyStore — no upstream
fetch happens. -/
theorem c10_truthiness_amended {K V : Type} [DecidableEq K] (lm : LM K V) (k : K) (v : V)
    (hhit : mapGet lm.cache k = some v) (hfal : lm.truthy v = false)
    (hkey : lm.key v = k) :
    lm.getByKeyV1 k = LMRead.sync (some v)
    ∧ lm.getByKeyV2 k = LMRead.viaDispatcher [k]
    ∧ (∀ (kf : V → K) (tr : V → Bool) (k2 : K) (ov : Option V),
        jsTruthy tr ov = false → chunkResults kf tr [k2] [ov] = [(k2, CVal.value none)]) := by
  have hjt : jsTruthy lm.truthy (mapGet lm.cache k) = false := by
    rw [hhit]
    exact hfal
  refine ⟨?_, getByKeyV2_miss lm k hjt, ?_⟩
  · have hsp : lm.sparseV1Start [k] = LMRead.sync [v] := by
      unfold LM.sparseV1Start
      simp [hhit, mapGet, mapSet, hkey]
    unfold LM.getByKeyV1
    rw [hjt]
    simp only [Bool.false_eq_true, if_false, hsp]
    rfl
  · intro kf tr k2 ov hov
    unfold chunkResults
    simp [hov]

/-- Claim C10, counterexample: a LazyMap whose KeyStore holds the falsy value
0 under key 0 (numbers, truthiness "non-zero"): the first variant's
`getByKey(0)` returns the cached 0 synchronously (`sync`), so the key is NOT
re-fetched — the claim's "re-fetches the key" fails on the cited first
variant. -/
theorem c10_counterexample :
    lmC10.getByKeyV1 0 = LMRead.sync (some 0)
    ∧ (LMRead.sync (some 0) : LMRead Nat Nat (Option Nat)) ≠ LMRead.viaDispatcher [0] := by
  refine ⟨by decide, by decide⟩

/-- Claim C10, witness: the amended theorem applied to the falsy-cache
LazyMap; the Dispatcher part applied to a falsy fetched item. -/
theorem c10_witness :
    lmC10.getByKeyV1 0 = LMRead.sync (some 0)
    ∧ lmC10.getByKeyV2 0 = LMRead.viaDispatcher [0]
    ∧ chunkResults (fun v => v) (fun v => decide (v ≠ 0)) [3] [some 0]
        = [(3, CVal.value none)] :=
  ⟨(c10_truthiness_amended lmC10 0 0 rfl rfl rfl).1,
   (c10_truthiness_amended lmC10 0 0 rfl rfl rfl).2.1,
   (c10_truthiness_amended lmC10 0 0 rfl rfl rfl).2.2 (fun v => v)
     (fun v => decide (v ≠ 0)) 3 (some 0) rfl⟩

end Projected
